import Mathlib

/-!
Shallow embedding of the beammp_rust_server racing server (src/src/server/*.rs,
src/src/config.rs, src/src/util.rs) and proofs about its race orchestration,
packet handling and geometry dispatch.

Modelling conventions:
- Rust `f32`/`f64` values are modelled as `ℚ`; the claims checked here only use
  the field operations `+ - *` and order comparisons, which the rationals share
  with the floats on the exact inputs considered.
- `std::time::Instant` is modelled as a `Nat` timestamp in milliseconds and
  `Duration` as a `Nat` of milliseconds; `start.elapsed()` at time `now`
  becomes `now - start`.
- `usize` arithmetic on lap and incident counters is modelled on `Nat` with an
  explicit wrap modulo `2 ^ 64` (release-build two's-complement semantics; a
  debug build would panic at the same boundary).
- `parry2d::query::intersection_test` is an external crate; it enters the
  model as an injected parameter of type `IntersectFn`.  `TrackLimits`'s loop
  over its triangles is translated faithfully.
- The files `client.rs`, `packet.rs` and `backend.rs` are declared by
  `server/mod.rs` but are not part of the staged sources; the `Client`
  structure and its car registry are modelled from the spec (each such
  definition says so in its doc string).
-/

namespace Beammp

/-- Word size of the target's `usize`. -/
def USIZE : Nat := 2 ^ 64

/-- Wrapping `usize` increment (release semantics of `x += 1`). -/
def usizeAdd1 (x : Nat) : Nat := (x + 1) % USIZE

/-- Wrapping `usize` decrement (release semantics of `x -= 1`; a debug build
panics on underflow at `x = 0`). -/
def usizeSub1 (x : Nat) : Nat := (x + (USIZE - 1)) % USIZE

/-- Wrapping `u8` subtraction `a - b` for byte values `a b < 256`
(release semantics; a debug build panics on underflow). -/
def u8Sub (a b : Nat) : Nat := (a + 256 - b) % 256

/-! ## Geometry: src/src/server/track_limits.rs and track_path.rs -/

/-- A 2D triangle, `track_limits.rs` lines 7-12 (`a`, `b`, `c` are `[f32; 2]`). -/
structure Triangle where
  a : ℚ × ℚ
  b : ℚ × ℚ
  c : ℚ × ℚ
deriving DecidableEq

/-- A union-of-triangles region, `track_limits.rs` lines 14-17. -/
structure TrackLimits where
  triangles : List Triangle
deriving DecidableEq

/-- The cuboid-vs-triangle test delegated to `parry2d::query::intersection_test`
(`track_limits.rs` line 32): an external crate, injected as a parameter.
Arguments: client position, client half-size, triangle. -/
def IntersectFn : Type := (ℚ × ℚ) → (ℚ × ℚ) → Triangle → Bool

/-- `TrackLimits::check_limits`, `track_limits.rs` lines 20-40: true iff some
triangle of the region intersects the client's axis-aligned box (the loop
returns at the first hit; an `Err` from the intersection test is logged and
skipped, which the `Bool`-valued `itest` absorbs). -/
def TrackLimits.check_limits (itest : IntersectFn) (tl : TrackLimits)
    (client_pos client_size_half : ℚ × ℚ) : Bool :=
  tl.triangles.any (fun tri => itest client_pos client_size_half tri)

/-- A path node, `track_path.rs` lines 13-18. -/
structure Node where
  p : ℚ × ℚ
  d : ℚ
  t : ℚ
deriving DecidableEq

/-- `TrackPath`, `track_path.rs` lines 6-11. -/
structure TrackPath where
  nodes : List Node
  triangles : List Triangle
  total_dist : ℚ
deriving DecidableEq

/-- `TrackPath::check_limits`, `track_path.rs` lines 61-65: reuses the
region test on the path's own triangle set. -/
def TrackPath.check_limits (itest : IntersectFn) (tp : TrackPath)
    (client_pos client_size_half : ℚ × ℚ) : Bool :=
  TrackLimits.check_limits itest ⟨tp.triangles⟩ client_pos client_size_half

/-! ## Vectors, spawns and lerp: src/src/util.rs and src/src/server/spawns.rs -/

/-- A 3-component vector (`[f64; 3]`, `nalgebra::Vector3<f64>`). -/
structure V3 where
  x : ℚ
  y : ℚ
  z : ℚ
deriving DecidableEq

/-- A 4-component array (`[f64; 4]`, also carries `nalgebra::Quaternion`
components where the code stores one). -/
structure R4 where
  r0 : ℚ
  r1 : ℚ
  r2 : ℚ
  r3 : ℚ
deriving DecidableEq

/-- Componentwise linear interpolation, `util.rs` lines 1-7:
`out[i] = a[i] + (b[i] - a[i]) * t`. -/
def lerpQ (a b t : ℚ) : ℚ := a + (b - a) * t

/-- `lerp` on a 3-vector (`util.rs` lines 1-7 with `N = 3`). -/
def lerpV3 (a b : V3) (t : ℚ) : V3 :=
  ⟨lerpQ a.x b.x t, lerpQ a.y b.y t, lerpQ a.z b.z t⟩

/-- `lerp` on a 4-array (`util.rs` lines 1-7 with `N = 4`). -/
def lerpR4 (a b : R4) (t : ℚ) : R4 :=
  ⟨lerpQ a.r0 b.r0 t, lerpQ a.r1 b.r1 t, lerpQ a.r2 b.r2 t, lerpQ a.r3 b.r3 t⟩

/-- A grid slot, `spawns.rs` lines 11-15. -/
structure Spawn where
  pos : V3
  rot : R4
deriving DecidableEq

/-- `Spawn::default()`: all components zero (Rust `#[derive(Default)]`). -/
def defSpawn : Spawn := ⟨⟨0, 0, 0⟩, ⟨0, 0, 0, 0⟩⟩

/-- The spawn set, `spawns.rs` lines 5-9. -/
structure Spawns where
  extrapolate : Bool
  spawns : List Spawn

/-- `Spawns::get_client_spawn`, `spawns.rs` lines 18-34: an in-range
`grid_id` indexes the slot list; past the end, with `extrapolate` set and at
least two slots, the slot is linearly extrapolated along slot 0 → slot 1 with
parameter `grid_id`; otherwise the default (zero) spawn is returned. -/
def getClientSpawn (s : Spawns) (grid_id : Nat) : Spawn :=
  if h : grid_id < s.spawns.length then s.spawns.get ⟨grid_id, h⟩
  else if s.extrapolate = true ∧ 1 < s.spawns.length then
    let a := s.spawns.getD 0 defSpawn
    let b := s.spawns.getD 1 defSpawn
    { pos := lerpV3 a.pos b.pos (grid_id : ℚ), rot := lerpR4 a.rot b.rot (grid_id : ℚ) }
  else defSpawn

/-! ## Car: src/src/server/car.rs -/

/-- The per-car state, `car.rs` lines 5-34, field for field.  Times are `Nat`
milliseconds, floats are `ℚ`, `lap_times` holds lap durations in
milliseconds. -/
structure Car where
  car_json : String
  pos : V3
  rot : R4
  vel : V3
  rvel : V3
  tim : ℚ
  ping : ℚ
  last_pos_update : Option Nat
  offtrack_start : Option Nat
  in_pits : Bool
  intersects_cp : Bool
  hitbox_half : V3
  latest_angle_to_track : ℚ
  latest_vel_angle_to_track : ℚ
  laps : Nat
  laps_ui_dirty : Bool
  lap_start : Option Nat
  lap_times : List Nat
  next_checkpoint : Nat
  active_checkpoint : Nat
  last_progress : ℚ
deriving DecidableEq

/-- `Car::default()` (Rust `#[derive(Default)]`): zeros, `None`s, empties. -/
def defCar : Car :=
  { car_json := "", pos := ⟨0, 0, 0⟩, rot := ⟨0, 0, 0, 0⟩, vel := ⟨0, 0, 0⟩,
    rvel := ⟨0, 0, 0⟩, tim := 0, ping := 0, last_pos_update := none,
    offtrack_start := none, in_pits := false, intersects_cp := false,
    hitbox_half := ⟨0, 0, 0⟩, latest_angle_to_track := 0,
    latest_vel_angle_to_track := 0, laps := 0, laps_ui_dirty := false,
    lap_start := none, lap_times := [], next_checkpoint := 0,
    active_checkpoint := 0, last_progress := 0 }

/-- `Car::new`, `car.rs` lines 37-61: defaults except the unit hitbox and the
dirty laps-UI flag, plus the supplied vehicle JSON. -/
def carNew (car_json : String) : Car :=
  { defCar with car_json := car_json, hitbox_half := ⟨1, 1, 1⟩, laps_ui_dirty := true }

/-! ## Client: modelled from the spec (client.rs is not in the staged sources) -/

/-- Modelled from the spec: `client.rs` is declared by `server/mod.rs` but is
not among the staged sources.  Spec section 4.2 says a per-client I/O error or
kick moves the session to the `Disconnect` state. -/
inductive ClientState where
  | Connected
  | Disconnect
deriving DecidableEq

/-- Modelled from the spec: `client.rs` is not among the staged sources.  Spec
section 3 lists the session state: identity `(id, username, roles)`, readiness
flag, grid position (1-based), finished flag, incident counter, owned cars
keyed by a per-client 0-based `car_id` (the socket, send queue, UDP address and
overlay handle are I/O and are not needed by any claim below). -/
structure Client where
  id : Nat
  username : String
  roles : String
  state : ClientState
  ready : Bool
  grid_spot : Nat
  finished : Bool
  incidents : Nat
  cars : List (Nat × Car)
deriving DecidableEq

/-- A default client for list `getD` lookups. -/
def defClient : Client :=
  { id := 0, username := "", roles := "", state := ClientState.Connected,
    ready := false, grid_spot := 0, finished := false, incidents := 0, cars := [] }

/-- Modelled from the spec: `Client::register_car` lives in the missing
`client.rs`.  Spec section 3 keys cars by a 0-based per-client `car_id`, so
registration assigns the next sequential id, appends the car and returns the
id (`mod.rs` line 1151 uses the returned id in the `Os:` acknowledgment). -/
def registerCar (c : Client) (car : Car) : Nat × Client :=
  (c.cars.length, { c with cars := c.cars ++ [(c.cars.length, car)] })

/-- Modelled from the spec: `Client::unregister_car` lives in the missing
`client.rs`.  Spec sections 4.3/4.4 say the addressed car is unregistered, so
the entry with the given id is removed. -/
def unregisterCar (c : Client) (car_id : Nat) : Client :=
  { c with cars := c.cars.filter (fun p => p.1 != car_id) }

/-! ## Server state machine: src/src/server/mod.rs -/

/-- `ServerState`, `mod.rs` lines 34-47. -/
inductive ServerState where
  | Unknown
  | WaitingForClients
  | WaitingForReady
  | WaitingForSpawns
  | Qualifying
  | LiningUp
  | Countdown
  | Race
  | Finish
deriving DecidableEq

/-- `[event] expected_clients`, `config.rs` lines 36-39: the whitelist is an
optional field of the TOML schema. -/
structure EventSettings where
  expected_clients : Option (List String)

/-! ## Whitelist check: mod.rs lines 557-575 -/

/-- ASCII whitespace, for the trim model below. -/
def wsChar (ch : Char) : Bool := ch = ' ' || ch = '\t' || ch = '\n' || ch = '\r'

/-- Rust's `str::trim` (used at `mod.rs` lines 563 and 585): strip leading and
trailing whitespace.  Modelled structurally over the character list (ASCII
whitespace, which covers every username and whitelist entry considered). -/
def strTrim (s : String) : String :=
  String.mk (((s.data.dropWhile wsChar).reverse.dropWhile wsChar).reverse)

/-- The whitelist scan of `Server::process`, `mod.rs` lines 559-572: collects
the indices of the clients whose trimmed username matches no entry of
`required_clients` (those indices are then kicked at lines 573-575).  The scan
compares only against the whitelist; it never compares one session against
another. -/
def whitelistKicks (required : List String) (clients : List Client) : List Nat :=
  clients.enum.filterMap (fun ic =>
    if required.any (fun name => strTrim ic.2.username == strTrim name) then none
    else some ic.1)

/-- The unconditional `self.config.event.expected_clients.as_ref().unwrap()`
at `mod.rs` line 558.  It runs on every call of `Server::process`, before the
server-state `match` at line 579, so it is reached in every server state; with
`expected_clients = None` the unwrap's failure branch (a panic) is taken,
modelled as `Except.error`. -/
def whitelistGate (ev : EventSettings) (clients : List Client) :
    Except String (List Nat) :=
  match ev.expected_clients with
  | none => Except.error "called unwrap on a None value"
  | some required => Except.ok (whitelistKicks required clients)

/-! ## Track-limits enforcement: mod.rs lines 450-479 -/

/-- One car's track-limits evaluation inside the Qualifying/Race tick,
`mod.rs` lines 453-472 (the body of the `for (_, car)` loop over the rotating
client's cars; `size = [1.0, 1.0]` per line 454).  Returns the updated
incident counter of the owning client and the updated car.
Control flow, as written in the source:
- inside `track_limits`: if `offtrack_start` was set, `incidents += 1`
  (line 460); then `offtrack_start = None` (line 463);
- outside: compute `intersects_pit` against `track_limits_pit`
  (lines 465-468); `if car.offtrack_start.is_none() && intersects_pit`
  set `offtrack_start = Some(now)` (lines 469-471) — note the guard requires
  the car to be INSIDE the pit region. -/
def trackLimitsCarStep (itest : IntersectFn)
    (track_limits track_limits_pit : Option TrackLimits)
    (now incidents : Nat) (car : Car) : Nat × Car :=
  match track_limits with
  | none => (incidents, car)
  | some limits =>
    if TrackLimits.check_limits itest limits (car.pos.x, car.pos.y) (1, 1) then
      let inc :=
        match car.offtrack_start with
        | some _ => usizeAdd1 incidents
        | none => incidents
      (inc, { car with offtrack_start := none })
    else
      let intersects_pit :=
        match track_limits_pit with
        | some limits2 =>
            TrackLimits.check_limits itest limits2 (car.pos.x, car.pos.y) (1, 1)
        | none => false
      if car.offtrack_start = none ∧ intersects_pit = true then
        (incidents, { car with offtrack_start := some now })
      else (incidents, car)

/-! ## Checkpoint progression: mod.rs lines 516-554 -/

/-- One car's checkpoint evaluation inside the Qualifying/Race tick,
`mod.rs` lines 518-552 (the body of the `for (_, car)` loop): on a rising edge
of intersection with the region at `next_checkpoint`, checkpoint 0 either
decrements the lap count (going backward: `latest_vel_angle_to_track > 135`,
lines 525-527) or records a lap (lines 528-536); any other checkpoint advances
the cursor (lines 537-544).  `laps` is a `usize`, so its decrement and
increment wrap modulo `2 ^ 64`. -/
def checkpointCarStep (itest : IntersectFn) (cps : List TrackPath)
    (now : Nat) (car : Car) : Car :=
  match cps.get? car.next_checkpoint with
  | none => car
  | some cp =>
    if TrackPath.check_limits itest cp (car.pos.x, car.pos.y)
        (car.hitbox_half.x, car.hitbox_half.y) then
      let car1 :=
        if car.intersects_cp then car
        else if car.next_checkpoint = 0 then
          let car0 := { car with active_checkpoint := cps.length - 1 }
          if car.latest_vel_angle_to_track > 135 then
            { car0 with laps := usizeSub1 car0.laps, lap_start := none }
          else
            let car2 :=
              match car0.lap_start with
              | some last => { car0 with lap_times := car0.lap_times ++ [now - last] }
              | none => car0
            { car2 with laps := usizeAdd1 car2.laps, laps_ui_dirty := true,
                        lap_start := some now, next_checkpoint := 1 }
        else
          let nc := car.next_checkpoint + 1
          { car with active_checkpoint := car.next_checkpoint,
                     next_checkpoint := if nc = cps.length then 0 else nc }
      { car1 with intersects_cp := true }
    else { car with intersects_cp := false }

/-! ## Qualifying exit: mod.rs lines 652-698 -/

/-- A client's fastest lap in milliseconds, `mod.rs` lines 661-668: the
minimum of all lap times over all of the client's cars, starting from
`u128::MAX`. -/
def fastestLap (c : Client) : Nat :=
  c.cars.foldl
    (fun acc idcar =>
      idcar.2.lap_times.foldl (fun f lap => if lap < f then lap else f) acc)
    (2 ^ 128 - 1)

/-- The `lap_id` vector, `mod.rs` lines 659-670: each client's index paired
with its fastest lap. -/
def lapIdList (clients : List Client) : List (Nat × Nat) :=
  clients.enum.map (fun ic => (ic.1, fastestLap ic.2))

/-- The `lap_id.sort_unstable_by(... timea.cmp(timeb))` of `mod.rs` line 671,
modelled as a merge sort with the same ascending-time comparator (the claims
proved below depend only on the output being a sorted permutation, which any
correct unstable sort guarantees). -/
def sortByTime (l : List (Nat × Nat)) : List (Nat × Nat) :=
  l.mergeSort (fun a b => decide (a.2 ≤ b.2))

/-- In-place update of one list element, modelling `self.clients[i].grid_spot = j`. -/
def modifyAt {α : Type} : List α → Nat → (α → α) → List α
  | [], _, _ => []
  | x :: xs, 0, f => f x :: xs
  | x :: xs, n + 1, f => x :: modifyAt xs n f

/-- The grid-spot assignment loop, `mod.rs` lines 672-676: walk the sorted
`lap_id` list and give the client at each stored index the next 1-based grid
position. -/
def assignGrid : List Client → List (Nat × Nat) → Nat → List Client
  | clients, [], _ => clients
  | clients, it :: rest, j =>
      assignGrid (modifyAt clients it.1 (fun c => { c with grid_spot := j })) rest (j + 1)

/-- The lap-counter reset after grid assignment, `mod.rs` lines 679-687. -/
def resetCarsAfterQual (clients : List Client) : List Client :=
  clients.map (fun c =>
    { c with cars := c.cars.map (fun p =>
        (p.1, { p.2 with laps := 0, lap_times := [], next_checkpoint := 0,
                         lap_start := none, offtrack_start := none })) })

/-- The Qualifying-exit computation, `mod.rs` lines 658-687: gather fastest
laps, sort ascending, assign 1-based grid spots in sorted order, then reset
every car's lap state. -/
def qualifyingExit (clients : List Client) : List Client :=
  resetCarsAfterQual (assignGrid clients (sortByTime (lapIdList clients)) 1)

/-! ## Race finish logic: mod.rs lines 778-816 -/

/-- The finish-flag loop of the Race arm, `mod.rs` lines 799-811, translated
to structural recursion over the client list (each loop iteration reads and
writes only `self.clients[i]`, so walking the list with a running index is the
same computation).  `cars[0]` on a carless client is an index panic, modelled
as `none`.  Returns the updated clients, the extended `finish_order` and the
final `all_finished` flag. -/
def raceFinishLoop (max_laps : Nat) :
    List Client → Nat → List Nat → Bool → Option (List Client × List Nat × Bool)
  | [], _, order, allf => some ([], order, allf)
  | c :: rest, idx, order, allf =>
    match c.cars.head? with
    | none => none
    | some idcar =>
      let step : Client × List Nat :=
        if max_laps < idcar.2.laps ∧ c.finished = false then
          ({ c with finished := true }, order ++ [idx])
        else (c, order)
      let allf2 := if step.1.finished = false then false else allf
      match raceFinishLoop max_laps rest (idx + 1) step.2 allf2 with
      | none => none
      | some out => some (step.1 :: out.1, out.2.1, out.2.2)

/-- The tail of the Race arm, `mod.rs` lines 799-816: run the finish-flag
loop, then, when `all_finished`, line 813 calls the async
`self.set_server_state(ServerState::Finish)` WITHOUT `.await`: the returned
future is dropped unpolled, its body never runs, and `server_state` keeps its
old value.  The end-of-tick state is therefore `st` in every case; only
`generic_timer0` (not modelled) is reset at line 814. -/
def raceTick (max_laps_cfg : Option Nat) (clients : List Client)
    (order : List Nat) (st : ServerState) :
    Option (List Client × List Nat × ServerState) :=
  match raceFinishLoop (max_laps_cfg.getD 5) clients 0 order true with
  | none => none
  | some out => some (out.1, out.2.1, st)

/-! ## Spawn requests: mod.rs lines 1126-1186 -/

/-- Where an outbound message of the spawn handler goes: to the requesting
client alone (`write_packet` / `trigger_client_event` on `client`) or to every
client (`self.broadcast(_, None)`). -/
inductive Target where
  | owner
  | allClients
deriving DecidableEq

/-- An outbound message of the spawn handler: a raw packet string, or a
client event (name, data) as sent by `trigger_client_event`. -/
inductive OutMsg where
  | raw (s : String)
  | clientEvent (name data : String)
deriving DecidableEq

/-- The `Os:` acknowledgment string, `mod.rs` lines 1154-1162 and 1167-1174:
`Os:<roles>:<name>:<cid>-<car_id>:<json>`. -/
def osPacket (roles name : String) (cid car_id : Nat) (json : String) : String :=
  "Os:" ++ roles ++ ":" ++ name ++ ":" ++ toString cid ++ "-" ++ toString car_id
    ++ ":" ++ json

/-- The `Od:` despawn string, `mod.rs` lines 1177-1181: `Od:<cid>-<car_id>`. -/
def odPacket (cid car_id : Nat) : String :=
  "Od:" ++ toString cid ++ "-" ++ toString car_id

/-- The spawn-permission computation, `mod.rs` lines 1139-1142:
`allowed = allow_spawns`, overridden to `false` when `max_cars` is configured
and the client already has at least that many cars. -/
def spawnAllowed (allow_spawns : Bool) (max_cars : Option Nat) (car_count : Nat) : Bool :=
  match max_cars with
  | some m => if m ≤ car_count then false else allow_spawns
  | none => allow_spawns

/-- The `O s` spawn-request handler, `mod.rs` lines 1137-1186, for the client
at `client_idx`; `car_json_str` stands for the third field of
`packet.data_as_string().splitn(3, ':')` (line 1144-1149).  The car is first
registered (line 1151); if allowed, a `GetSize` event goes to the owner and
the `Os:` acknowledgment is broadcast to everybody (lines 1153-1165); if
denied, the same `Os:` followed by `Od:` is written to the owner only and the
car is unregistered (lines 1166-1186).  Returns the updated client and the
outbound messages in send order. -/
def spawnRequest (allow_spawns : Bool) (max_cars : Option Nat)
    (c : Client) (car_json_str : String) : Client × List (Target × OutMsg) :=
  let allowed := spawnAllowed allow_spawns max_cars c.cars.length
  let rc := registerCar c (carNew car_json_str)
  let car_id := rc.1
  let c1 := rc.2
  if allowed then
    (c1, [(Target.owner, OutMsg.clientEvent "GetSize" (toString c1.id)),
          (Target.allClients,
           OutMsg.raw (osPacket c1.roles c1.username c1.id car_id car_json_str))])
  else
    (unregisterCar c1 car_id,
     [(Target.owner,
       OutMsg.raw (osPacket c1.roles c1.username c1.id car_id car_json_str)),
      (Target.owner, OutMsg.raw (odPacket c1.id car_id))])

/-! ## Inbound id parsing: mod.rs lines 954-994 and 1188-1207 -/

/-- The bytes of a string (ASCII payloads). -/
def strBytes (s : String) : List Nat := s.data.map Char.toNat

/-- The id extraction of the `O c` vehicle-update handler, `mod.rs` lines
1191-1192: `client_id = packet.data[3] - 48`, `car_id = packet.data[5] - 48` —
one byte each at a fixed offset, minus ASCII `'0'`, with `u8` wrap-around. -/
def parseOcIds (data : List Nat) : Nat × Nat :=
  (u8Sub (data.getD 3 0) 48, u8Sub (data.getD 5 0) 48)

/-- The id extraction of the UDP `Z` transform handler, `mod.rs` lines
960-961: the same single-byte reads at offsets 3 and 5. -/
def parseZIds (data : List Nat) : Nat × Nat :=
  (u8Sub (data.getD 3 0) 48, u8Sub (data.getD 5 0) 48)

/-- Modelled from the spec: the `O c` wire layout `Oc:<cid>-<car_id>:<json>`
written with base-10 decimal ids (spec section 4.1 gives this shape for the
`O`-family packets).  Used to compare the claimed base-10 field semantics with
the byte-offset extraction `parseOcIds`. -/
def renderOcPacket (cid car_id : Nat) (json : String) : List Nat :=
  strBytes ("Oc:" ++ toString cid ++ "-" ++ toString car_id ++ ":" ++ json)

/-- Modelled from the spec: the `Z` wire layout `Z:<cid>:<car_id>:<json>`
(spec section 4.1) written with base-10 decimal ids, compared with
`parseZIds`. -/
def renderZPacket (cid car_id : Nat) (json : String) : List Nat :=
  strBytes ("Z:" ++ toString cid ++ ":" ++ toString car_id ++ ":" ++ json)

/-! ## UDP send path: mod.rs lines 855-879 -/

/-- The 4-byte compression marker `"ABG:"` (`mod.rs` line 869). -/
def abgMarker : List Nat := strBytes "ABG:"

/-- `Server::send_udp`, `mod.rs` lines 855-879: a payload longer than 400
bytes is zlib-compressed (`flate2`, an external crate, injected as
`compress`) and sent behind the `"ABG:"` marker; otherwise the payload is
sent verbatim. -/
def sendUdpPayload (compress : List Nat → List Nat) (data : List Nat) : List Nat :=
  if 400 < data.length then abgMarker ++ compress data else data

/-! ## Concrete inputs used by the closed theorems below -/

/-- An intersection test that reports a hit against every triangle. -/
def hitAll : IntersectFn := fun _ _ _ => true

/-- A sample triangle. -/
def tri0 : Triangle := ⟨(0, 0), (4, 0), (0, 4)⟩

/-- A region with one triangle. -/
def tlOne : TrackLimits := ⟨[tri0]⟩

/-- A region with no triangles: nothing can intersect it. -/
def tlEmpty : TrackLimits := ⟨[]⟩

/-- A checkpoint region holding one triangle. -/
def cpOne : TrackPath := { nodes := [], triangles := [tri0], total_dist := 0 }

/-- C1's roster: two connected clients, neither finished, whose first cars
have 6 and 9 laps (both past the default `max_laps = 5`). -/
def c1Clients : List Client :=
  [{ defClient with
      id := 0
      username := "alice"
      cars := [(0, { defCar with laps := 6 })] },
   { defClient with
      id := 1
      username := "bob"
      cars := [(0, { defCar with laps := 9 })] }]

/-- C2's car: at the origin, off-track timer unset. -/
def c2Car : Car := defCar

/-- C5/C6/C7 concrete clients. -/
def c5Alice0 : Client := { defClient with id := 0, username := "alice" }

/-- A second session authenticated under the same username as `c5Alice0`. -/
def c5Alice1 : Client := { defClient with id := 1, username := "alice" }

/-- A non-whitelisted session. -/
def c5Bob : Client := { defClient with id := 2, username := "bob" }

/-- C6's car: about to cross the start/finish line backward with zero laps. -/
def c6Car : Car :=
  { defCar with next_checkpoint := 0, intersects_cp := false,
                latest_vel_angle_to_track := 180, laps := 0,
                hitbox_half := ⟨1, 1, 1⟩ }

/-- C6's witness car: crossing the start/finish line backward with 3 laps. -/
def c6Car3 : Car := { c6Car with laps := 3 }

/-- C9's witness spawn set: two slots, extrapolation enabled. -/
def spawnsW : Spawns :=
  { extrapolate := true,
    spawns := [⟨⟨0, 0, 0⟩, ⟨0, 0, 0, 0⟩⟩, ⟨⟨1, 2, 3⟩, ⟨1, 0, 0, 0⟩⟩] }

/-- C4's client: one registered car (id 0), so a second spawn with
`max_cars = 1` is denied. -/
def c4Client : Client :=
  { defClient with
      id := 3
      username := "second"
      roles := "USER"
      cars := [(0, carNew "firstcar")] }

end Beammp

namespace Beammp

/-! ## Helper lemmas -/

/-- The decimal rendering of a single digit is one ASCII byte, `48 + n`. -/
theorem digitBytes (n : Nat) (h : n ≤ 9) :
    (toString n).data.map Char.toNat = [48 + n] := by
  interval_cases n <;> decide

/-- `modifyAt` preserves the list length. -/
theorem modifyAt_length {α : Type} (l : List α) (i : Nat) (f : α → α) :
    (modifyAt l i f).length = l.length := by
  induction l generalizing i with
  | nil => rfl
  | cons x xs ih =>
    cases i with
    | zero => rfl
    | succ n => simp [modifyAt, ih]

/-- Reading the modified position of `modifyAt`. -/
theorem getD_modifyAt_self {α : Type} (l : List α) (i : Nat) (f : α → α) (d : α)
    (h : i < l.length) : (modifyAt l i f).getD i d = f (l.getD i d) := by
  induction l generalizing i with
  | nil => simp at h
  | cons x xs ih =>
    cases i with
    | zero => rfl
    | succ n =>
      simp only [modifyAt, List.getD_cons_succ]
      exact ih n (by simpa using h)

/-- Reading any other position of `modifyAt`. -/
theorem getD_modifyAt_ne {α : Type} (l : List α) (i j : Nat) (f : α → α) (d : α)
    (h : j ≠ i) : (modifyAt l i f).getD j d = l.getD j d := by
  induction l generalizing i j with
  | nil => rfl
  | cons x xs ih =>
    cases i with
    | zero =>
      cases j with
      | zero => exact absurd rfl h
      | succ m => rfl
    | succ k =>
      cases j with
      | zero => rfl
      | succ m =>
        simp only [modifyAt, List.getD_cons_succ]
        exact ih k m (by omega)

/-- `assignGrid` preserves the roster length. -/
theorem assignGrid_length (order : List (Nat × Nat)) :
    ∀ (clients : List Client) (j : Nat),
      (assignGrid clients order j).length = clients.length := by
  induction order with
  | nil => intro clients j; rfl
  | cons kt rest ih =>
    intro clients j
    simp only [assignGrid]
    rw [ih, modifyAt_length]

/-- Pointwise description of `assignGrid`: a client whose index appears in the
(duplicate-free) order list receives `j` plus the position of its index there;
every other client is untouched. -/
theorem assignGrid_getD (order : List (Nat × Nat)) :
    ∀ (clients : List Client) (j i : Nat),
      (order.map Prod.fst).Nodup → i < clients.length →
      (assignGrid clients order j).getD i defClient =
        if i ∈ order.map Prod.fst then
          { clients.getD i defClient with
              grid_spot := j + (order.map Prod.fst).indexOf i }
        else clients.getD i defClient := by
  induction order with
  | nil =>
    intro clients j i _ _
    simp [assignGrid]
  | cons kt rest ih =>
    intro clients j i hnd hi
    obtain ⟨k, t⟩ := kt
    simp only [List.map_cons, List.nodup_cons] at hnd
    simp only [assignGrid]
    have hlen : i < (modifyAt clients k (fun c => { c with grid_spot := j })).length := by
      rw [modifyAt_length]; exact hi
    rw [ih _ (j + 1) i hnd.2 hlen]
    by_cases hik : i = k
    · subst hik
      rw [if_neg hnd.1]
      rw [getD_modifyAt_self _ _ _ _ hi]
      rw [if_pos (by simp), List.map_cons, List.indexOf_cons_self]
      rfl
    · rw [getD_modifyAt_ne _ _ _ _ _ hik]
      by_cases hin : i ∈ rest.map Prod.fst
      · rw [if_pos hin, if_pos (by simp [hin]), List.map_cons,
          List.indexOf_cons_ne _ (fun hk => hik hk.symm)]
        have harith : j + 1 + (rest.map Prod.fst).indexOf i =
            j + ((rest.map Prod.fst).indexOf i).succ := by omega
        rw [harith]
      · rw [if_neg hin, if_neg (by simp [hik, hin])]

/-- A map over a list is the map over its index range. -/
theorem map_eq_range_map {α β : Type} (l : List α) (f : α → β) (d : α) :
    l.map f = (List.range l.length).map (fun i => f (l.getD i d)) := by
  apply List.ext_getElem
  · simp
  · intro i h1 h2
    have hi : i < l.length := by simpa using h1
    simp [List.getElem_map, List.getElem_range, List.getD_eq_getElem _ _ hi,
      List.getElem?_eq_getElem hi, Option.getD_some]

/-- The position-of-each-element map of a permutation of `range n` is itself a
permutation of `range n` (the inverse permutation). -/
theorem indexOf_range_perm {F : List Nat} {n : Nat} (hF : F.Perm (List.range n)) :
    ((List.range n).map (fun i => F.indexOf i)).Perm (List.range n) := by
  have hlen : F.length = n := by simpa using hF.length_eq
  have hmem : ∀ i, i < n → i ∈ F := fun i hi =>
    hF.mem_iff.mpr (List.mem_range.mpr hi)
  have hnd : ((List.range n).map (fun i => F.indexOf i)).Nodup := by
    refine List.Nodup.map_on ?_ (List.nodup_range n)
    intro x hx y hy hxy
    exact (List.indexOf_inj (hmem x (List.mem_range.mp hx))
      (hmem y (List.mem_range.mp hy))).mp hxy
  have hsub : ((List.range n).map (fun i => F.indexOf i)) ⊆ List.range n := by
    intro g hg
    simp only [List.mem_map] at hg
    obtain ⟨i, hi, rfl⟩ := hg
    have hlt : F.indexOf i < F.length :=
      List.indexOf_lt_length.mpr (hmem i (List.mem_range.mp hi))
    exact List.mem_range.mpr (hlen ▸ hlt)
  exact (List.subperm_of_subset hnd hsub).perm_of_length_le (by simp)

/-- The client indices stored in `lap_id` are exactly `0 .. clients.length - 1`. -/
theorem lapIdList_map_fst (clients : List Client) :
    (lapIdList clients).map Prod.fst = List.range clients.length := by
  simp only [lapIdList, List.map_map]
  have hcomp : (Prod.fst ∘ fun ic : Nat × Client => (ic.1, fastestLap ic.2))
      = Prod.fst := by
    funext ic; rfl
  rw [hcomp, List.enum_map_fst]

/-- Every `lap_id` entry pairs a valid client index with that client's
fastest lap. -/
theorem mem_lapIdList {clients : List Client} {p : Nat × Nat}
    (hp : p ∈ lapIdList clients) :
    p.1 < clients.length ∧ p.2 = fastestLap (clients.getD p.1 defClient) := by
  simp only [lapIdList, List.mem_map] at hp
  obtain ⟨ic, hmem, rfl⟩ := hp
  rw [List.mem_enum_iff_getElem?] at hmem
  have hlt : ic.1 < clients.length := by
    by_contra hge
    rw [List.getElem?_eq_none (by omega)] at hmem
    exact Option.noConfusion hmem
  refine ⟨hlt, ?_⟩
  have hval : clients.getD ic.1 defClient = ic.2 := by
    rw [List.getD_eq_getElem _ _ hlt]
    rw [List.getElem?_eq_getElem hlt] at hmem
    exact Option.some_injective _ hmem
  rw [hval]

/-- The sorted `lap_id` list is pairwise ascending in lap time. -/
theorem sortByTime_sorted (l : List (Nat × Nat)) :
    (sortByTime l).Pairwise (fun a b => a.2 ≤ b.2) := by
  have h := @List.sorted_mergeSort (Nat × Nat) (fun a b => decide (a.2 ≤ b.2))
    (fun a b c hab hbc => by
      simp only [decide_eq_true_eq] at hab hbc ⊢
      omega)
    (fun a b => by simpa using Nat.le_total a.2 b.2)
    l
  exact h.imp (fun hab => by simpa using hab)

/-- The post-qualifying car reset never touches a client's grid spot. -/
theorem getD_resetCars (clients : List Client) (i : Nat) (hi : i < clients.length) :
    ((resetCarsAfterQual clients).getD i defClient).grid_spot =
      (clients.getD i defClient).grid_spot := by
  unfold resetCarsAfterQual
  rw [List.getD_eq_getElem _ _ (by simpa using hi), List.getElem_map,
    List.getD_eq_getElem _ _ hi]

/-! ## Claims -/

/-- C1.  The claim says that a Race tick in which every connected client's
finished flag ends up true leaves the server state equal to `Finish`.  The
code sets the finished flags exactly as claimed (`laps > max_laps`, default
5), and on this roster every flag does become true — but the end-of-tick
state is still `Race`, because `mod.rs` line 813 calls the async
`set_server_state(ServerState::Finish)` without `.await`, dropping the future
unpolled.  This theorem evaluates the embedded tick at the failing input. -/
theorem C1_race_finish_bug :
    c1Clients.all (fun c => !c.finished) = true ∧
    (raceTick none c1Clients [] ServerState.Race).map
      (fun out => (out.1.all (fun c => c.finished), out.2.1, out.2.2)) =
      some (true, [0, 1], ServerState.Race) ∧
    ServerState.Race ≠ ServerState.Finish := by decide

/-- C2.  The claim says an off-track car inside the pit region keeps
`offtrack_start` unset, and an off-track car outside the pit region gets
`offtrack_start = now`.  The code's guard (`mod.rs` line 469,
`offtrack_start.is_none() && intersects_pit`) is inverted: at the concrete
input below, a car outside the track but inside the pit gets the timer SET
(`some 500`), and a car outside both regions keeps it UNSET.  This theorem
evaluates the embedded per-car step at that failing input. -/
theorem C2_track_limits_bug :
    c2Car.offtrack_start = none ∧
    TrackLimits.check_limits hitAll tlEmpty (c2Car.pos.x, c2Car.pos.y) (1, 1) = false ∧
    TrackLimits.check_limits hitAll tlOne (c2Car.pos.x, c2Car.pos.y) (1, 1) = true ∧
    (trackLimitsCarStep hitAll (some tlEmpty) (some tlOne) 500 0 c2Car).2.offtrack_start
      = some 500 ∧
    (trackLimitsCarStep hitAll (some tlEmpty) (some tlEmpty) 500 0 c2Car).2.offtrack_start
      = none := by decide

/-- C3.  When Qualifying exits, the assigned `grid_spot` values over the N
connected clients are a permutation of `1..N`, and grid order is monotone in
each client's fastest lap time (`2^128 - 1` for a client with no laps):
a client with a strictly smaller grid number has a fastest lap no larger than
a client with a bigger one. -/
theorem C3_qualifying_grid (clients : List Client) :
    ((qualifyingExit clients).map (fun c => c.grid_spot)).Perm
      (List.range' 1 clients.length) ∧
    (∀ i j, i < clients.length → j < clients.length →
      ((qualifyingExit clients).getD i defClient).grid_spot <
        ((qualifyingExit clients).getD j defClient).grid_spot →
      fastestLap (clients.getD i defClient) ≤
        fastestLap (clients.getD j defClient)) := by
  have hSperm : (sortByTime (lapIdList clients)).Perm (lapIdList clients) :=
    List.mergeSort_perm _ _
  have hFperm : ((sortByTime (lapIdList clients)).map Prod.fst).Perm
      (List.range clients.length) := by
    have h1 := hSperm.map Prod.fst
    rwa [lapIdList_map_fst] at h1
  have hFnd : ((sortByTime (lapIdList clients)).map Prod.fst).Nodup :=
    (hFperm.nodup_iff).mpr (List.nodup_range _)
  have hmemF : ∀ i, i < clients.length →
      i ∈ (sortByTime (lapIdList clients)).map Prod.fst := fun i hi =>
    hFperm.mem_iff.mpr (List.mem_range.mpr hi)
  have houtlen : (qualifyingExit clients).length = clients.length := by
    simp [qualifyingExit, resetCarsAfterQual, assignGrid_length]
  have hmidgetD : ∀ i, i < clients.length →
      (assignGrid clients (sortByTime (lapIdList clients)) 1).getD i defClient =
        { clients.getD i defClient with
            grid_spot :=
              1 + ((sortByTime (lapIdList clients)).map Prod.fst).indexOf i } := by
    intro i hi
    rw [assignGrid_getD _ _ _ _ hFnd hi, if_pos (hmemF i hi)]
  have hgrid : ∀ i, i < clients.length →
      ((qualifyingExit clients).getD i defClient).grid_spot =
        1 + ((sortByTime (lapIdList clients)).map Prod.fst).indexOf i := by
    intro i hi
    have hi2 : i < (assignGrid clients (sortByTime (lapIdList clients)) 1).length := by
      rw [assignGrid_length]; exact hi
    unfold qualifyingExit
    rw [getD_resetCars _ i hi2, hmidgetD i hi]
  constructor
  · have hmap : (qualifyingExit clients).map (fun c => c.grid_spot) =
        (List.range clients.length).map
          (fun i => 1 + ((sortByTime (lapIdList clients)).map Prod.fst).indexOf i) := by
      rw [map_eq_range_map (qualifyingExit clients) (fun c => c.grid_spot) defClient]
      rw [houtlen]
      exact List.map_congr_left (fun i hi => hgrid i (List.mem_range.mp hi))
    rw [hmap]
    have h1 : (List.range clients.length).map
        (fun i => 1 + ((sortByTime (lapIdList clients)).map Prod.fst).indexOf i) =
        ((List.range clients.length).map
          (fun i => ((sortByTime (lapIdList clients)).map Prod.fst).indexOf i)).map
          (fun x => 1 + x) := by
      rw [List.map_map]
      rfl
    rw [h1, List.range'_eq_map_range]
    exact (indexOf_range_perm hFperm).map (fun x => 1 + x)
  · intro i j hi hj hlt
    rw [hgrid i hi, hgrid j hj] at hlt
    have hij : ((sortByTime (lapIdList clients)).map Prod.fst).indexOf i <
        ((sortByTime (lapIdList clients)).map Prod.fst).indexOf j := by omega
    have hpi := List.indexOf_lt_length.mpr (hmemF i hi)
    have hpj := List.indexOf_lt_length.mpr (hmemF j hj)
    have hpiS : ((sortByTime (lapIdList clients)).map Prod.fst).indexOf i <
        (sortByTime (lapIdList clients)).length := by
      simpa using hpi
    have hpjS : ((sortByTime (lapIdList clients)).map Prod.fst).indexOf j <
        (sortByTime (lapIdList clients)).length := by
      simpa using hpj
    have hfst_i : ((sortByTime (lapIdList clients)).get
        ⟨((sortByTime (lapIdList clients)).map Prod.fst).indexOf i, hpiS⟩).1 = i := by
      have h1 := List.getElem_indexOf hpi
      rw [List.getElem_map] at h1
      rw [List.get_eq_getElem]
      exact h1
    have hfst_j : ((sortByTime (lapIdList clients)).get
        ⟨((sortByTime (lapIdList clients)).map Prod.fst).indexOf j, hpjS⟩).1 = j := by
      have h1 := List.getElem_indexOf hpj
      rw [List.getElem_map] at h1
      rw [List.get_eq_getElem]
      exact h1
    have hsnd : ∀ p ∈ sortByTime (lapIdList clients),
        p.2 = fastestLap (clients.getD p.1 defClient) := fun p hp =>
      (mem_lapIdList (hSperm.mem_iff.mp hp)).2
    have hle := (List.pairwise_iff_get.mp (sortByTime_sorted (lapIdList clients)))
      ⟨_, hpiS⟩ ⟨_, hpjS⟩ hij
    have h2i := hsnd _ (List.get_mem (sortByTime (lapIdList clients)) _ hpiS)
    have h2j := hsnd _ (List.get_mem (sortByTime (lapIdList clients)) _ hpjS)
    rw [hfst_i] at h2i
    rw [hfst_j] at h2j
    calc fastestLap (clients.getD i defClient)
        = ((sortByTime (lapIdList clients)).get ⟨_, hpiS⟩).2 := h2i.symm
      _ ≤ ((sortByTime (lapIdList clients)).get ⟨_, hpjS⟩).2 := hle
      _ = fastestLap (clients.getD j defClient) := h2j

end Beammp

namespace Beammp

/-- C4.  A denied `O s` spawn request (spawns disallowed, or the client already
at the configured `max_cars`) produces exactly two messages, both addressed to
the requesting client alone — the `Os:<roles>:<name>:<cid>-<car_id>:<json>`
acknowledgment immediately followed by `Od:<cid>-<car_id>` — and leaves the
client's registered car list exactly as it was (the freshly registered car is
unregistered again).  The id-freshness hypothesis is the spec's 0-based
per-client car-id invariant. -/
theorem C4_spawn_denied (allow_spawns : Bool) (max_cars : Option Nat)
    (c : Client) (json : String)
    (hden : allow_spawns = false ∨ ∃ m, max_cars = some m ∧ m ≤ c.cars.length)
    (hids : ∀ p ∈ c.cars, p.1 ≠ c.cars.length) :
    (spawnRequest allow_spawns max_cars c json).2 =
      [(Target.owner,
        OutMsg.raw (osPacket c.roles c.username c.id c.cars.length json)),
       (Target.owner, OutMsg.raw (odPacket c.id c.cars.length))] ∧
    (spawnRequest allow_spawns max_cars c json).1.cars = c.cars := by
  have hallowed : spawnAllowed allow_spawns max_cars c.cars.length = false := by
    rcases hden with h | ⟨m, hm, hle⟩
    · subst h
      cases max_cars <;> simp [spawnAllowed]
    · subst hm
      simp [spawnAllowed, hle]
  have hfilter :
      (c.cars ++ [(c.cars.length, carNew json)]).filter
        (fun p => p.1 != c.cars.length) = c.cars := by
    rw [List.filter_append]
    have h1 : c.cars.filter (fun p => p.1 != c.cars.length) = c.cars :=
      List.filter_eq_self.mpr (fun p hp => by simpa using hids p hp)
    have h2 : ([(c.cars.length, carNew json)] : List (Nat × Car)).filter
        (fun p => p.1 != c.cars.length) = [] := by simp
    rw [h1, h2, List.append_nil]
  constructor
  · simp [spawnRequest, hallowed, registerCar, unregisterCar]
  · simp [spawnRequest, hallowed, registerCar, unregisterCar, hfilter]

/-- C4's witness: a second spawn with `max_cars = 1` on a one-car client. -/
theorem C4_spawn_denied_witness :
    (spawnRequest true (some 1) c4Client "car2").2 =
      [(Target.owner,
        OutMsg.raw (osPacket c4Client.roles c4Client.username c4Client.id
          c4Client.cars.length "car2")),
       (Target.owner, OutMsg.raw (odPacket c4Client.id c4Client.cars.length))] ∧
    (spawnRequest true (some 1) c4Client "car2").1.cars = c4Client.cars :=
  C4_spawn_denied true (some 1) c4Client "car2"
    (Or.inr ⟨1, rfl, by decide⟩) (by decide)

/-- C5's counterexample.  Two live authenticated sessions share the
whitelisted username "alice", yet the whitelist check of `Server::process`
kicks neither: it only tests membership in `expected_clients`, never
uniqueness, so the claimed at-most-one-session-per-username invariant is not
enforced by it. -/
theorem C5_dup_counterexample :
    c5Alice0.username = c5Alice1.username ∧ c5Alice0.id ≠ c5Alice1.id ∧
    whitelistKicks ["alice"] [c5Alice0, c5Alice1] = [] := by decide

/-- C5, amended.  What the whitelist check actually enforces: a client index
is kicked iff the client's trimmed username matches no whitelist entry.  A
session whose username is whitelisted is never kicked by this check, duplicate
or not. -/
theorem C5_whitelist_amended (required : List String) (clients : List Client)
    (i : Nat) (h : i < clients.length) :
    i ∈ whitelistKicks required clients ↔
      ∀ name ∈ required,
        strTrim (clients.get ⟨i, h⟩).username ≠ strTrim name := by
  simp only [whitelistKicks, List.mem_filterMap]
  constructor
  · rintro ⟨⟨j, cl⟩, hmem, hf⟩
    rw [List.mem_enum_iff_getElem?] at hmem
    by_cases hany : required.any (fun name => strTrim cl.username == strTrim name)
    · simp [hany] at hf
    · simp only [hany, if_neg] at hf
      simp only [Bool.not_eq_true, List.any_eq_false] at hany
      have hj : j = i := by simpa using hf
      subst hj
      have hcl : cl = clients.get ⟨j, h⟩ := by
        have hg := List.getElem?_eq_getElem h
        simp only [hg] at hmem
        exact (Option.some_injective _ hmem.symm)
      subst hcl
      intro name hname
      have hb := hany name hname
      simpa using hb
  · intro hall
    refine ⟨(i, clients.get ⟨i, h⟩), ?_, ?_⟩
    · rw [List.mem_enum_iff_getElem?]
      simp [List.getElem?_eq_getElem h]
    · have hany : (required.any
          (fun name => strTrim (clients.get ⟨i, h⟩).username == strTrim name))
          = false := by
        simp only [List.any_eq_false]
        intro name hname
        simpa using hall name hname
      simp only [hany, Bool.false_eq_true, if_false]

/-- C5's witness: the non-whitelisted session "bob" is kicked by the check. -/
theorem C5_whitelist_amended_witness :
    0 ∈ whitelistKicks ["alice"] [c5Bob] :=
  (C5_whitelist_amended ["alice"] [c5Bob] 0 (by decide)).mpr (by decide)

/-- C6's counterexample.  A car with `laps = 0` crossing checkpoint 0
backward (rising edge, angle 180 > 135): `laps` is a `usize`, so the
decrement underflows and wraps to `2^64 - 1` (a debug build panics) — the lap
count does not "decrease by exactly one" at this input. -/
theorem C6_backward_counterexample :
    c6Car.laps = 0 ∧ c6Car.intersects_cp = false ∧ c6Car.next_checkpoint = 0 ∧
    c6Car.latest_vel_angle_to_track > 135 ∧
    (checkpointCarStep hitAll [cpOne] 1000 c6Car).laps = 2 ^ 64 - 1 ∧
    (checkpointCarStep hitAll [cpOne] 1000 c6Car).laps + 1 ≠ c6Car.laps := by decide

/-- C6, amended.  For a car with at least one lap (and below the `usize`
bound), a rising-edge intersection with checkpoint 0 while
`latest_vel_angle_to_track > 135` decrements the lap count by exactly one,
clears `lap_start`, and records no lap time. -/
theorem C6_backward_amended (itest : IntersectFn) (cps : List TrackPath)
    (now : Nat) (car : Car) (cp : TrackPath)
    (hget : cps.get? car.next_checkpoint = some cp)
    (hhit : TrackPath.check_limits itest cp (car.pos.x, car.pos.y)
        (car.hitbox_half.x, car.hitbox_half.y) = true)
    (hedge : car.intersects_cp = false)
    (h0 : car.next_checkpoint = 0)
    (hang : car.latest_vel_angle_to_track > 135)
    (h1 : 1 ≤ car.laps) (h2 : car.laps < USIZE) :
    (checkpointCarStep itest cps now car).laps = car.laps - 1 ∧
    (checkpointCarStep itest cps now car).lap_start = none ∧
    (checkpointCarStep itest cps now car).lap_times = car.lap_times := by
  unfold checkpointCarStep
  rw [hget]
  simp only [hhit, hedge, h0, if_true, if_false, Bool.false_eq_true, if_pos hang]
  have hsub : usizeSub1 car.laps = car.laps - 1 := by
    unfold usizeSub1 USIZE at *
    omega
  simp [hsub]

/-- C6's witness: the same backward crossing on a car with 3 laps. -/
theorem C6_backward_amended_witness :
    (checkpointCarStep hitAll [cpOne] 1000 c6Car3).laps = c6Car3.laps - 1 ∧
    (checkpointCarStep hitAll [cpOne] 1000 c6Car3).lap_start = none ∧
    (checkpointCarStep hitAll [cpOne] 1000 c6Car3).lap_times = c6Car3.lap_times :=
  C6_backward_amended hitAll [cpOne] 1000 c6Car3 cpOne (by decide) (by decide)
    (by decide) (by decide) (by decide) (by decide) (by decide)

/-- C7's counterexample.  The routers do not parse ids with base-10 integer
semantics: an `O c` packet written `Oc:10-0:<json>` is acted on as client id
`1` (byte `'1'` minus 48) with a wrapped car id, not client 10; a `Z` packet
written in the spec's own layout `Z:<cid>:<car_id>:<json>` has a colon at the
fixed read offsets, so even single-digit ids are mis-read. -/
theorem C7_parse_counterexample :
    parseOcIds (renderOcPacket 10 0 "x") ≠ (10, 0) ∧
    parseZIds (renderZPacket 3 4 "x") ≠ (3, 4) := by decide

/-- C7, amended.  Ids are read as single ASCII bytes at fixed offsets 3 and 5
minus 48 (`u8` wrap-around), so for an `O c` packet the acted-on ids equal
the written base-10 values exactly when both ids are single digits (0-9);
multi-digit ids are mis-parsed, and the `Z` handler's offsets do not fit the
`Z:<cid>:<car_id>:<json>` layout at all. -/
theorem C7_parse_amended (cid car_id : Nat) (json : String)
    (h1 : cid ≤ 9) (h2 : car_id ≤ 9) :
    parseOcIds (renderOcPacket cid car_id json) = (cid, car_id) := by
  have hOc : ("Oc:").data.map Char.toNat = [79, 99, 58] := by decide
  have hDash : ("-").data.map Char.toNat = [45] := by decide
  have hColon : (":").data.map Char.toNat = [58] := by decide
  have hc := digitBytes cid h1
  have hd := digitBytes car_id h2
  simp only [renderOcPacket, strBytes, String.data_append, List.map_append,
    hOc, hDash, hColon, hc, hd, parseOcIds]
  simp only [List.cons_append, List.nil_append, List.getD_cons_succ,
    List.getD_cons_zero, u8Sub, Prod.mk.injEq]
  constructor <;> omega

/-- C7's witness: single-digit ids 7 and 2 round-trip through the `O c`
extraction. -/
theorem C7_parse_amended_witness :
    parseOcIds (renderOcPacket 7 2 "x") = (7, 2) :=
  C7_parse_amended 7 2 "x" (by decide) (by decide)

/-- C8.  The UDP send path transmits `"ABG:" ++ compressed payload` exactly
when the uncompressed payload length exceeds 400 bytes, and transmits a
payload of 400 bytes or fewer verbatim, with no marker prepended. -/
theorem C8_compression_threshold (compress : List Nat → List Nat)
    (data : List Nat) :
    (400 < data.length →
      sendUdpPayload compress data = abgMarker ++ compress data) ∧
    (data.length ≤ 400 → sendUdpPayload compress data = data) := by
  constructor
  · intro h
    simp [sendUdpPayload, h]
  · intro h
    simp [sendUdpPayload, Nat.not_lt.mpr h]

/-- C8's witness: a 401-byte payload gains the marker, a 400-byte payload is
sent verbatim. -/
theorem C8_compression_threshold_witness :
    sendUdpPayload (fun x => x) (List.replicate 401 0) =
      abgMarker ++ List.replicate 401 0 ∧
    sendUdpPayload (fun x => x) (List.replicate 400 0) = List.replicate 400 0 :=
  ⟨(C8_compression_threshold (fun x => x) (List.replicate 401 0)).1
      (by rw [List.length_replicate]; omega),
   (C8_compression_threshold (fun x => x) (List.replicate 400 0)).2
      (by rw [List.length_replicate])⟩

/-- C9.  With `extrapolate = true`, at least two slots, and a `grid_id` at or
past the end of the slot list, `get_client_spawn` returns the componentwise
linear extrapolation `slot0 + (slot1 - slot0) * grid_id` for both position
and rotation. -/
theorem C9_spawn_extrapolation (s : Spawns) (g : Nat)
    (hx : s.extrapolate = true) (h2 : 2 ≤ s.spawns.length)
    (hg : s.spawns.length ≤ g) :
    getClientSpawn s g =
      { pos := ⟨(s.spawns.getD 0 defSpawn).pos.x +
                  ((s.spawns.getD 1 defSpawn).pos.x
                    - (s.spawns.getD 0 defSpawn).pos.x) * (g : ℚ),
                (s.spawns.getD 0 defSpawn).pos.y +
                  ((s.spawns.getD 1 defSpawn).pos.y
                    - (s.spawns.getD 0 defSpawn).pos.y) * (g : ℚ),
                (s.spawns.getD 0 defSpawn).pos.z +
                  ((s.spawns.getD 1 defSpawn).pos.z
                    - (s.spawns.getD 0 defSpawn).pos.z) * (g : ℚ)⟩,
        rot := ⟨(s.spawns.getD 0 defSpawn).rot.r0 +
                  ((s.spawns.getD 1 defSpawn).rot.r0
                    - (s.spawns.getD 0 defSpawn).rot.r0) * (g : ℚ),
                (s.spawns.getD 0 defSpawn).rot.r1 +
                  ((s.spawns.getD 1 defSpawn).rot.r1
                    - (s.spawns.getD 0 defSpawn).rot.r1) * (g : ℚ),
                (s.spawns.getD 0 defSpawn).rot.r2 +
                  ((s.spawns.getD 1 defSpawn).rot.r2
                    - (s.spawns.getD 0 defSpawn).rot.r2) * (g : ℚ),
                (s.spawns.getD 0 defSpawn).rot.r3 +
                  ((s.spawns.getD 1 defSpawn).rot.r3
                    - (s.spawns.getD 0 defSpawn).rot.r3) * (g : ℚ)⟩ } := by
  unfold getClientSpawn
  rw [dif_neg (by omega)]
  rw [if_pos ⟨hx, by omega⟩]
  rfl

/-- C9's witness: two slots at the origin and (1,2,3), grid id 5 extrapolates
to (5,10,15). -/
theorem C9_spawn_extrapolation_witness :
    getClientSpawn spawnsW 5 = { pos := ⟨5, 10, 15⟩, rot := ⟨5, 0, 0, 0⟩ } := by
  have h := C9_spawn_extrapolation spawnsW 5 rfl (by decide) (by decide)
  rw [h]
  simp only [spawnsW, defSpawn, List.getD, List.get?, Spawn.mk.injEq, V3.mk.injEq,
    R4.mk.injEq]
  norm_num

/-- C10.  The whitelist check of `Server::process` unconditionally unwraps
`config.event.expected_clients` on every tick (before the server-state
match, hence in every state): with the optional field set to `None` the
unwrap's failure branch (a panic) is reached; with it set, the tick's
whitelist phase succeeds. -/
theorem C10_expected_clients_unwrap :
    (∀ clients, whitelistGate ⟨none⟩ clients =
      Except.error "called unwrap on a None value") ∧
    (∀ clients, (whitelistGate ⟨none⟩ clients).isOk = false) ∧
    (∀ required clients, whitelistGate ⟨some required⟩ clients =
      Except.ok (whitelistKicks required clients)) :=
  ⟨fun _ => rfl, fun _ => rfl, fun _ _ => rfl⟩

end Beammp
